import Mathlib

/-!
Verification development for the repo-sql-testing core: a shallow embedding of
the issue-body parser (`parseIssueBody`, `parseYAMLFrontmatter`,
`parseMarkdownFormat`, `normalizeParsedData`), the validator
(`validateIssueData`), the operation classifier (`detectIssueType`) and the
record store (`createRecord`, `updateRecord`, `getRecord`) from `db.js` and
`issue-parser.js`, together with theorems settling the frozen claims.

Conventions of the embedding:
- JavaScript strings are Lean `String`s (manipulated as `List Char`);
  `undefined`/`null`-able values are `Option`s.
- JavaScript truthiness of a possibly-absent string (`x || y`) is modelled by
  `jsTruthy` / `jsOrOpt`; `x || null` by `jsOrNull`.
- `parseInt(v, 10)` is modelled by `jsParseInt` (skip leading whitespace,
  optional sign, longest digit prefix, `NaN` when there is no digit —
  modelled as `none`).
- SQLite timestamps (`datetime('now')`) are passed in as an explicit `now`
  argument; the `users` table is a list of rows plus the next AUTOINCREMENT id.
- Thrown `Error`s become `Except` errors (`ParseErr`, `DbErr`).
-/

/-- Whitespace class of the JavaScript regex `\s` (ASCII part) and of
`String.prototype.trim`, restricted to the characters relevant here. -/
def isWsChar (c : Char) : Bool :=
  c = ' ' || c = '\t' || c = '\n' || c = '\r' || c = '\x0b' || c = '\x0c'

/-- Trim `isWsChar` characters from both ends of a char list. -/
def trimL (l : List Char) : List Char :=
  ((l.dropWhile isWsChar).reverse.dropWhile isWsChar).reverse

/-- Model of `String.prototype.trim`. -/
def jsTrim (s : String) : String :=
  String.mk (trimL s.toList)

/-- Does `p` match the front of `l` (exact chars)? -/
def leadMatch : List Char → List Char → Bool
  | [], _ => true
  | _ :: _, [] => false
  | a :: p, b :: l => a == b && leadMatch p l

/-- Does `p` occur contiguously anywhere in `l`? Model of
`String.prototype.includes`. -/
def containsSub (p : List Char) : List Char → Bool
  | [] => leadMatch p []
  | l@(_ :: t) => leadMatch p l || containsSub p t

/-- Model of `haystack.includes(needle)`. -/
def jsIncludes (hay needle : String) : Bool :=
  containsSub needle.toList hay.toList

/-- Model of `s.startsWith(p)`. -/
def jsStartsWith (s p : String) : Bool :=
  leadMatch p.toList s.toList

/-- Model of `s.toLowerCase()` (ASCII case folding, character by
character). -/
def jsToLower (s : String) : String :=
  String.mk (s.toList.map Char.toLower)

/-- JavaScript truthiness of a string-or-absent value: `undefined`, `null`
and `""` are falsy, every other string is truthy. -/
def jsTruthy : Option String → Bool
  | some s => !(s == "")
  | none => false

/-- Model of `a || b` on string-or-absent values. -/
def jsOrOpt (a b : Option String) : Option String :=
  if jsTruthy a then a else b

/-- Model of `a || ''` on a string-or-absent value. -/
def jsStrOr : Option String → String
  | some s => s
  | none => ""

/-- Model of `v || null`: a falsy options value is stored as SQL NULL. -/
def jsOrNull (o : Option String) : Option String :=
  match o with
  | some s => if s = "" then none else some s
  | none => none

/-- Numeric value of a nonempty digit list. -/
def digitsVal (ds : List Char) : Int :=
  ds.foldl (fun n c => n * 10 + ((c.toNat : Int) - 48)) 0

/-- Model of `parseInt(s, 10)`: skip leading whitespace, optional sign, then
the longest digit prefix; `none` models `NaN` (no digit found). -/
def jsParseInt (s : String) : Option Int :=
  let l := s.toList.dropWhile isWsChar
  let sl : Int × List Char :=
    match l with
    | '-' :: t => (-1, t)
    | '+' :: t => (1, t)
    | _ => (1, l)
  let ds := sl.2.takeWhile (fun c => c.isDigit)
  if ds.isEmpty then none else some (sl.1 * digitsVal ds)

/-- Errors thrown by the parsing pipeline of `issue-parser.js`. -/
inductive ParseErr
  /-- Thrown as `Issue body is empty or invalid`. -/
  | emptyInput
  /-- Thrown as `Invalid YAML frontmatter format`. -/
  | malformedFrontmatter
  /-- Thrown as `Invalid record ID: <val>`. -/
  | invalidRecordId (val : String)
deriving DecidableEq, Repr

/-- Errors thrown by `db.js`. -/
inductive DbErr
  /-- Thrown as `Record with ID <id> not found`. -/
  | recordNotFound (id : Int)
  /-- Thrown as `Unauthorized: Record belongs to <owner>, not <caller>`. -/
  | unauthorized (owner caller : String)
  /-- Thrown as `Update failed: Record not found or unauthorized`. -/
  | updateFailed
deriving DecidableEq, Repr

/-- The two operation kinds, the `'create'` / `'update'` strings of the
source. -/
inductive IssueType
  | create
  | update
deriving DecidableEq, Repr

/-- String form of an `IssueType`, for interpolated error messages. -/
def issueTypeStr : IssueType → String
  | .create => "create"
  | .update => "update"

/-- Raw field map handed to `normalizeParsedData`: the dynamic `data` object
built by `parseYAMLFrontmatter` / `parseMarkdownFormat`, with one `Option`
per key the normalizer reads. `none` models an absent key. -/
structure RawData where
  name : Option String
  state : Option String
  options : Option String
  recordId : Option String
  record_id : Option String
  id : Option String
deriving DecidableEq, Repr

/-- The normalized record produced by `normalizeParsedData`. -/
structure NormalizedRecord where
  type : IssueType
  name : String
  state : String
  options : String
  recordId : Option Int
deriving DecidableEq, Repr

/-- The reconciled identifier chain
`data.recordId || data.record_id || data.id || null`. -/
def idValue (data : RawData) : Option String :=
  let rid := jsOrOpt data.recordId (jsOrOpt data.record_id data.id)
  if jsTruthy rid then rid else none

/-- Model of `normalizeParsedData(data)` from `issue-parser.js`: the type is
`'update'` iff the identifier chain is truthy, name/state/options default to
`''`, and a present identifier is converted with `parseInt(·, 10)`, throwing
`Invalid record ID` when that yields `NaN`. -/
def normalizeParsedData (data : RawData) : Except ParseErr NormalizedRecord :=
  let ty : IssueType :=
    if jsTruthy data.recordId || jsTruthy data.record_id || jsTruthy data.id
    then .update else .create
  let nm := jsStrOr data.name
  let stt := jsStrOr data.state
  let opts := jsStrOr data.options
  match idValue data with
  | none => .ok ⟨ty, nm, stt, opts, none⟩
  | some s =>
    match jsParseInt s with
    | none => .error (.invalidRecordId s)
    | some n => .ok ⟨ty, nm, stt, opts, some n⟩

/-- Result of `validateIssueData`. -/
structure ValidationResult where
  isValid : Bool
  errors : List String
deriving DecidableEq, Repr

/-- Model of `validateIssueData(parsedData, issueType)`: all checks run, in
source order, collecting message strings. The record-id check is the source's
`!parsedData.recordId || isNaN(parsedData.recordId)`: with `recordId` an
`Option Int` this is true exactly when it is `none` (absent/null) or `some 0`
(the number 0 is falsy in JavaScript); `isNaN` is always false on an actual
integer. The options try/catch of the source never pushes an error. -/
def validateIssueData (parsedData : NormalizedRecord) (issueType : IssueType) :
    ValidationResult :=
  let e1 :=
    if parsedData.type ≠ issueType then
      ["Issue type mismatch: expected " ++ issueTypeStr issueType ++
        ", got " ++ issueTypeStr parsedData.type]
    else []
  let e2 :=
    if parsedData.name == "" || jsTrim parsedData.name == "" then
      ["Name is required"]
    else []
  let e3 :=
    if parsedData.state == "" || jsTrim parsedData.state == "" then
      ["State is required"]
    else []
  let e4 :=
    if issueType = .update then
      match parsedData.recordId with
      | none => ["Record ID is required for updates"]
      | some n => if n = 0 then ["Record ID is required for updates"] else []
    else []
  let errors := e1 ++ e2 ++ e3 ++ e4
  ⟨errors.isEmpty, errors⟩

/-- A label as received by `detectIssueType`: either a plain string or an
object whose `name` property may be absent. -/
inductive LabelInput
  | str (s : String)
  | obj (name : Option String)
deriving DecidableEq, Repr

/-- The lowercased label names: `l.toLowerCase()` for strings,
`l.name?.toLowerCase() || ''` for objects. -/
def labelNamesOf (labels : List LabelInput) : List String :=
  labels.map fun l =>
    match l with
    | .str s => jsToLower s
    | .obj (some n) => jsToLower n
    | .obj none => ""

/-- Model of `detectIssueType(title, labels)` from `issue-parser.js`. -/
def detectIssueType (title : String) (labels : List LabelInput) : IssueType :=
  let titleLower := jsToLower title
  let labelNames := labelNamesOf labels
  if labelNames.contains "update" || labelNames.contains "update-record" then
    .update
  else if labelNames.contains "create" || labelNames.contains "create-record" then
    .create
  else if jsIncludes titleLower "[update]" || jsStartsWith titleLower "update:" then
    .update
  else if jsIncludes titleLower "[create]" || jsStartsWith titleLower "create:" then
    .create
  else
    .create

/-- A row of the `users` table. -/
structure Rec where
  id : Int
  name : String
  state : String
  options : Option String
  github_username : String
  created_at : String
  updated_at : String
deriving DecidableEq, Repr

/-- The `users` table: rows in insertion order plus the next AUTOINCREMENT
id. -/
structure Store where
  rows : List Rec
  nextId : Int
deriving DecidableEq, Repr

/-- Well-formedness delivered by SQLite: every assigned id is below the next
AUTOINCREMENT value, and ids are unique (INTEGER PRIMARY KEY). -/
def WFStore (st : Store) : Prop :=
  (∀ r ∈ st.rows, r.id < st.nextId) ∧ (st.rows.map (fun r => r.id)).Nodup

/-- Model of `getRecord(id)`: `SELECT * FROM users WHERE id = ?`, first row
or null. -/
def getRecord (id : Int) (st : Store) : Option Rec :=
  st.rows.find? (fun r => r.id == id)

/-- Model of `createRecord(name, state, options, githubUsername)`: insert a
row with `options || null`, `created_at = updated_at = datetime('now')`, then
return `getRecord(lastInsertRowid)`. -/
def createRecord (name state : String) (options : Option String)
    (githubUsername : String) (now : String) (st : Store) :
    Option Rec × Store :=
  let newRec : Rec :=
    ⟨st.nextId, name, state, jsOrNull options, githubUsername, now, now⟩
  let st2 : Store := ⟨st.rows ++ [newRec], st.nextId + 1⟩
  (getRecord st.nextId st2, st2)

/-- The row mutation performed by the UPDATE statement on a matching row. -/
def applyUpdate (name state : String) (options : Option String)
    (now : String) (r : Rec) : Rec :=
  { r with name := name, state := state, options := jsOrNull options,
           updated_at := now }

/-- The WHERE clause of the UPDATE statement:
`WHERE id = ? AND github_username = ?`. -/
def hitRow (id : Int) (githubUsername : String) (r : Rec) : Bool :=
  r.id == id && r.github_username == githubUsername

/-- Model of `updateRecord(id, name, state, options, githubUsername)`:
look up the record (throw `recordNotFound` if absent), check ownership
(throw `unauthorized` on mismatch) — both before any write — then run
`UPDATE ... WHERE id = ? AND github_username = ?`, throw `updateFailed` when
no row changed, and return `getRecord(id)`. The store component of the result
is the table after the call. -/
def updateRecord (id : Int) (name state : String) (options : Option String)
    (githubUsername : String) (now : String) (st : Store) :
    Except DbErr (Option Rec) × Store :=
  match getRecord id st with
  | none => (.error (.recordNotFound id), st)
  | some existing =>
    if existing.github_username ≠ githubUsername then
      (.error (.unauthorized existing.github_username githubUsername), st)
    else
      let st2 : Store :=
        ⟨st.rows.map (fun r =>
          if hitRow id githubUsername r then applyUpdate name state options now r
          else r), st.nextId⟩
      if (st.rows.filter (hitRow id githubUsername)).length = 0 then
        (.error .updateFailed, st2)
      else (.ok (getRecord id st2), st2)

/-! ### Frontmatter structure matcher

The source matches `body` against the regex
`^---\s*\n([\s\S]*?)\n---\s*\n([\s\S]*)$` and throws
`Invalid YAML frontmatter format` when there is no match. The engine match is
embedded in two parts: `fmMatchable` decides whether a match exists, and
`extractYamlContent` computes the first capture group (the YAML block) under
the engine's greedy/lazy choices. -/

/-- Does the leading whitespace run of `l` contain a newline? This is exactly
when `\s*\n` can consume a prefix of `l`. -/
def wsRunHasNewline : List Char → Bool
  | [] => false
  | c :: rest =>
    if c = '\n' then true
    else if isWsChar c then wsRunHasNewline rest
    else false

/-- Drop up to and including the first newline (used only when
`wsRunHasNewline` holds, so everything dropped is whitespace). -/
def dropThruFirstNl : List Char → List Char
  | [] => []
  | c :: rest => if c = '\n' then rest else dropThruFirstNl rest

/-- Does `l` begin with `---` followed by a whitespace run containing a
newline — i.e. can `---\s*\n` consume a prefix of `l`? -/
def startsClose (l : List Char) : Bool :=
  match l with
  | '-' :: '-' :: '-' :: r => wsRunHasNewline r
  | _ => false

/-- Does `\n---\s*\n` occur anywhere in `l`? -/
def hasCloseDelim : List Char → Bool
  | [] => false
  | c :: rest => (c = '\n' && startsClose rest) || hasCloseDelim rest

/-- Does the frontmatter regex match `s`? After the opening `---`, the
pattern `\s*\n` must consume whitespace ending at some newline of the leading
whitespace run; taking the first such newline leaves the largest suffix, so a
closing `\n---\s*\n` is findable for some choice iff it is findable after the
first newline. -/
def fmMatchableL : List Char → Bool
  | '-' :: '-' :: '-' :: rest =>
    wsRunHasNewline rest && hasCloseDelim (dropThruFirstNl rest)
  | _ => false

/-- String wrapper for `fmMatchableL`. -/
def fmMatchable (s : String) : Bool :=
  fmMatchableL s.toList

/-- Declarative reading of the frontmatter regex: the text is `---`, a
whitespace run, a newline, a block, then `\n---`, a whitespace run, a newline,
and an arbitrary remainder. -/
def FMShapeL (l : List Char) : Prop :=
  ∃ w1 block w2 rest,
    (∀ c ∈ w1, isWsChar c = true) ∧ (∀ c ∈ w2, isWsChar c = true) ∧
    l = '-' :: '-' :: '-' ::
      (w1 ++ '\n' :: (block ++ '\n' :: '-' :: '-' :: '-' ::
        (w2 ++ '\n' :: rest)))

/-- Suffixes of `l` that follow a newline lying in the leading whitespace run
of `l`, ordered by later newlines first (the regex engine's greedy order for
the `\s*` before the newline). -/
def runNlSuffixes : List Char → List (List Char)
  | [] => []
  | c :: t =>
    if c = '\n' then runNlSuffixes t ++ [t]
    else if isWsChar c then runNlSuffixes t
    else []

/-- The block captured before the first occurrence of the closing
`\n---\s*\n` (lazy group: the engine keeps the block shortest). -/
def blockUpToClose : List Char → List Char
  | [] => []
  | c :: rest =>
    if c = '\n' && startsClose rest then []
    else c :: blockUpToClose rest

/-- The YAML block (capture group 1) of a matching text: greedy opening
`\s*` picks the last usable newline of the opening run, lazy block ends at
the first closing delimiter. Junk (`[]`) on non-matching input — only used
under `fmMatchable`. -/
def extractYamlContent (s : String) : List Char :=
  match s.toList with
  | '-' :: '-' :: '-' :: rest =>
    blockUpToClose (((runNlSuffixes rest).find? hasCloseDelim).getD [])
  | _ => []

/-! ### YAML block line parsing -/

/-- Split a char list at newlines (model of `String.split('\n')`). -/
def splitNl : List Char → List (List Char)
  | [] => [[]]
  | c :: t =>
    match splitNl t with
    | [] => [[c]]
    | h :: r => if c = '\n' then [] :: h :: r else (c :: h) :: r

/-- Word character of the regex `\w`. -/
def isWordChar (c : Char) : Bool :=
  c.isAlpha || c.isDigit || c = '_'

/-- Match one line against `^(\w+):\s*(.+)$` and return the key and the raw
group-2 value. The `\w+` is maximal (a shorter prefix would be followed by a
word character, not `:`); the greedy `\s*` backs off by one character when
`(.+)` would otherwise be empty. -/
def lineKV (line : List Char) : Option (List Char × List Char) :=
  let key := line.takeWhile isWordChar
  let rest := line.drop key.length
  if key.isEmpty then none
  else
    match rest with
    | ':' :: afterColon =>
      let ws := afterColon.takeWhile isWsChar
      let v := afterColon.drop ws.length
      if !v.isEmpty then some (key, v)
      else
        match ws.getLast? with
        | some c => some (key, [c])
        | none => none
    | _ => none

/-- Strip one pair of matching surrounding quotes, as the source does after
trimming the value. -/
def stripQuotes (v : List Char) : List Char :=
  match v with
  | c :: _ =>
    if (c = '"' && v.getLast? = some '"') ||
       (c = '\'' && v.getLast? = some '\'') then
      (v.drop 1).dropLast
    else v
  | [] => v

/-- Store one parsed `key: value` line into the raw field map (`data[key] =
value`; keys other than the six the normalizer reads are ignored, later
occurrences overwrite earlier ones). -/
def rawInsert (d : RawData) (kv : List Char × List Char) : RawData :=
  let key := String.mk kv.1
  let value := String.mk (stripQuotes (trimL kv.2))
  if key = "name" then { d with name := some value }
  else if key = "state" then { d with state := some value }
  else if key = "options" then { d with options := some value }
  else if key = "recordId" then { d with recordId := some value }
  else if key = "record_id" then { d with record_id := some value }
  else if key = "id" then { d with id := some value }
  else d

/-- The all-absent raw field map (`const data = {}`). -/
def emptyRaw : RawData := ⟨none, none, none, none, none, none⟩

/-- Parse every line of the YAML block, last occurrence of a key winning. -/
def rawFromYaml (content : List Char) : RawData :=
  (splitNl content).foldl
    (fun d line =>
      match lineKV line with
      | some kv => rawInsert d kv
      | none => d)
    emptyRaw

/-- Extraction stage of `parseYAMLFrontmatter`: the structural regex match
(throwing `Invalid YAML frontmatter format` when it fails) followed by the
line loop that builds the raw field map. -/
def extractFrontmatterRaw (s : String) : Except ParseErr RawData :=
  if fmMatchable s then .ok (rawFromYaml (extractYamlContent s))
  else .error .malformedFrontmatter

/-- Model of `parseYAMLFrontmatter(body)`: extract the raw field map from the
frontmatter block, then normalize it. -/
def parseYAMLFrontmatter (body : String) : Except ParseErr NormalizedRecord :=
  (extractFrontmatterRaw body).bind normalizeParsedData

/-! ### Markdown section extraction

Each pattern of `parseMarkdownFormat` has the shape
`###\s*Word(\s*Word)*\s*\n([^\n]+)` (case-insensitive; the options pattern is
`###\s*Options?\s*\n([^\n]+)` with an optional trailing `s`). Since the
keywords start with letters and `\s` never matches a letter, the inner `\s*`
runs are forced to be the maximal whitespace runs; only the final `\s*` before
the newline genuinely backtracks, which `finalCapture` replays greedily. -/

/-- Match the keyword `w` (lowercase) case-insensitively at the head of `l`,
returning the remainder. -/
def matchWordCI : List Char → List Char → Option (List Char)
  | [], l => some l
  | _ :: _, [] => none
  | a :: p, c :: l => if c.toLower = a then matchWordCI p l else none

/-- Match `\s*\n([^\n]+)` at the head of `l` with a greedy `\s*` (longest
whitespace run first, backing off until the following newline leaves at least
one non-newline character to capture); return the capture. -/
def finalCapture : List Char → Option (List Char)
  | [] => none
  | c :: rest =>
    if isWsChar c then
      match finalCapture rest with
      | some cap => some cap
      | none =>
        if c = '\n' then
          let cap := rest.takeWhile (fun x => x ≠ '\n')
          if cap.isEmpty then none else some cap
        else none
    else none

/-- Match the keyword list of a section pattern (each keyword preceded by
`\s*`), the optional trailing `s` for `Options?` (tried greedily), and the
final `\s*\n([^\n]+)`. -/
def matchKeywords (words : List (List Char)) (optS : Bool) :
    List Char → Option (List Char)
  | l =>
    match words with
    | [] =>
      if optS then
        match l with
        | c :: rest =>
          if c.toLower = 's' then
            match finalCapture rest with
            | some cap => some cap
            | none => finalCapture l
          else finalCapture l
        | [] => none
      else finalCapture l
    | w :: ws =>
      match matchWordCI w (l.dropWhile isWsChar) with
      | some l2 => matchKeywords ws optS l2
      | none => none

/-- Try a section pattern at this exact position: `###` then the keywords. -/
def matchSectionAt (words : List (List Char)) (optS : Bool)
    (l : List Char) : Option (List Char) :=
  match l with
  | '#' :: '#' :: '#' :: rest => matchKeywords words optS rest
  | _ => none

/-- Leftmost match of a section pattern anywhere in the text (the regexes of
`parseMarkdownFormat` are unanchored). -/
def scanFind (words : List (List Char)) (optS : Bool) :
    List Char → Option (List Char)
  | [] => none
  | l@(_ :: t) =>
    match matchSectionAt words optS l with
    | some cap => some cap
    | none => scanFind words optS t

/-- Run one pattern of `parseMarkdownFormat` over the body and trim the
captured line, as `match[1].trim()` does. -/
def sectionValue (words : List (List Char)) (optS : Bool) (body : List Char) :
    Option String :=
  (scanFind words optS body).map (fun cap => String.mk (trimL cap))

/-- Model of `parseMarkdownFormat(body)`: extract the six patterned fields
(`recordId` and `record_id` share the `### Record ID` pattern) and normalize.
-/
def parseMarkdownFormat (body : String) : Except ParseErr NormalizedRecord :=
  let l := body.toList
  let data : RawData :=
    { name := sectionValue [['n','a','m','e']] false l
      state := sectionValue [['s','t','a','t','e']] false l
      options := sectionValue [['o','p','t','i','o','n']] true l
      recordId := sectionValue [['r','e','c','o','r','d'], ['i','d']] false l
      record_id := sectionValue [['r','e','c','o','r','d'], ['i','d']] false l
      id := sectionValue [['i','d']] false l }
  normalizeParsedData data

/-- Model of `parseIssueBody(body)`: reject an absent or empty body, trim,
then dispatch on whether the trimmed text starts with `---`. -/
def parseIssueBody (body : Option String) : Except ParseErr NormalizedRecord :=
  match body with
  | none => .error .emptyInput
  | some b =>
    if b = "" then .error .emptyInput
    else
      let trimmedBody := jsTrim b
      if jsStartsWith trimmedBody "---" then parseYAMLFrontmatter trimmedBody
      else parseMarkdownFormat trimmedBody

/-! ### Store lemmas -/

/-- A fresh id (equal to `nextId`) is found exactly at the appended row. -/
lemma find?_append_fresh (rows : List Rec) (nid : Int)
    (h : ∀ r ∈ rows, r.id < nid) (x : Rec) (hx : x.id = nid) :
    (rows ++ [x]).find? (fun r => r.id == nid) = some x := by
  induction rows with
  | nil => simp [List.find?, hx]
  | cons a t ih =>
    have ha : a.id ≠ nid := Int.ne_of_lt (h a (by simp))
    have hb : (a.id == nid) = false := by simpa using ha
    simpa [List.find?_cons, hb] using ih (fun r hr => h r (by simp [hr]))

/-- Full description of `createRecord` on a well-formed store. -/
lemma createRecord_spec (nm stt : String) (o : Option String) (w now : String)
    (st : Store) (hWF : WFStore st) :
    createRecord nm stt o w now st =
      (some ⟨st.nextId, nm, stt, jsOrNull o, w, now, now⟩,
       ⟨st.rows ++ [⟨st.nextId, nm, stt, jsOrNull o, w, now, now⟩],
        st.nextId + 1⟩) := by
  unfold createRecord getRecord
  exact congrArg (fun r => (r, _))
    (find?_append_fresh st.rows st.nextId hWF.1 _ rfl)

/-- The mutation `applyUpdate` does not touch the id. -/
lemma applyUpdate_id (nm stt : String) (o : Option String) (now : String)
    (r : Rec) : (applyUpdate nm stt o now r).id = r.id := rfl

/-- Lookup by id commutes with an id-preserving per-row update. -/
lemma find?_map_update (rows : List Rec) (id : Int) (old : Rec)
    (f g : Rec → Rec) (hf : ∀ r, (f r).id = r.id)
    (hg : ∀ r, g r = if r.id = id then f r else r)
    (hfind : rows.find? (fun r => r.id == id) = some old) :
    (rows.map g).find? (fun r => r.id == id) = some (f old) := by
  induction rows with
  | nil => simp [List.find?] at hfind
  | cons a t ih =>
    rw [List.map_cons]
    by_cases hid : a.id = id
    · have hb : (a.id == id) = true := by simpa using hid
      simp only [List.find?, hb] at hfind
      have hga : g a = f a := by rw [hg, if_pos hid]
      have hb2 : ((g a).id == id) = true := by
        rw [hga, hf]; exact hb
      simp only [List.find?, hb2]
      injection hfind with h
      rw [hga, h]
    · have hb : (a.id == id) = false := by simpa using hid
      simp only [List.find?, hb] at hfind
      have hga : g a = a := by rw [hg, if_neg hid]
      have hb2 : ((g a).id == id) = false := by rw [hga]; exact hb
      simp only [List.find?, hb2]
      exact ih hfind

/-- Distinct rows of a well-formed store have distinct ids. -/
lemma id_inj_of_WF {st : Store} (hWF : WFStore st) :
    ∀ r1 ∈ st.rows, ∀ r2 ∈ st.rows, r1.id = r2.id → r1 = r2 := by
  intro r1 h1 r2 h2 h12
  exact List.inj_on_of_nodup_map hWF.2 h1 h2 h12

/-- Full description of a successful `updateRecord` on a well-formed store:
the state of the check passing, the new table, and the returned row. -/
lemma updateRecord_ok_spec (st : Store) (id : Int) (nm stt : String)
    (o : Option String) (w now : String) (res : Option Rec) (st2 : Store)
    (hWF : WFStore st)
    (hup : updateRecord id nm stt o w now st = (.ok res, st2))
    (old : Rec) (hold : getRecord id st = some old) :
    old.github_username = w ∧
    st2.rows = st.rows.map
      (fun r => if r.id = id then applyUpdate nm stt o now r else r) ∧
    st2.nextId = st.nextId ∧
    res = some (applyUpdate nm stt o now old) ∧
    getRecord id st2 = some (applyUpdate nm stt o now old) := by
  have hmem : old ∈ st.rows := List.mem_of_find?_eq_some hold
  have hid : old.id = id := by
    have := List.find?_some hold
    simpa using this
  unfold updateRecord at hup
  split at hup
  · rename_i heq
    rw [hold] at heq
    exact Option.noConfusion heq
  · rename_i existing heq
    have hex : existing = old := by
      rw [hold] at heq
      exact (Option.some.inj heq).symm
    subst hex
    split at hup
    · exact absurd (Prod.mk.inj hup).1 (by simp)
    · rename_i hno
      have hw : existing.github_username = w := not_not.mp hno
      have hgr : ∀ r : Rec,
          (if hitRow id w r then applyUpdate nm stt o now r else r) =
          (if r.id = id then applyUpdate nm stt o now r else r) ∨ r ∉ st.rows := by
        intro r
        by_cases hr : r ∈ st.rows
        · left
          by_cases hrid : r.id = id
          · have : r = existing :=
              id_inj_of_WF hWF r hr existing hmem (hrid.trans hid.symm)
            subst this
            simp [hitRow, hrid, hw]
          · simp [hitRow, hrid]
        · right; exact hr
      have hrows : ∀ r ∈ st.rows,
          (if hitRow id w r then applyUpdate nm stt o now r else r) =
          (if r.id = id then applyUpdate nm stt o now r else r) := by
        intro r hr
        rcases hgr r with h | h
        · exact h
        · exact absurd hr h
      have hmapeq : st.rows.map
          (fun r => if hitRow id w r then applyUpdate nm stt o now r else r) =
          st.rows.map
            (fun r => if r.id = id then applyUpdate nm stt o now r else r) :=
        List.map_congr_left hrows
      split at hup
      · exact absurd (Prod.mk.inj hup).1 (by simp)
      · obtain ⟨hres, hst2⟩ := Prod.mk.inj hup
        have hfind2 : (st.rows.map
            (fun r => if hitRow id w r then applyUpdate nm stt o now r
                      else r)).find? (fun r => r.id == id) =
            some (applyUpdate nm stt o now existing) := by
          rw [hmapeq]
          exact find?_map_update st.rows id existing _ _ (fun r => rfl)
            (fun r => rfl) hold
        have hget : getRecord id
            (⟨st.rows.map (fun r =>
                if hitRow id w r then applyUpdate nm stt o now r else r),
              st.nextId⟩ : Store) =
            some (applyUpdate nm stt o now existing) := hfind2
        refine ⟨hw, ?_, ?_, ?_, ?_⟩
        · rw [← hst2]; exact hmapeq
        · rw [← hst2]
        · injection hres with h
          rw [← h]
          exact hget
        · rw [← hst2]; exact hget

/-! ### Concrete fixtures for witnesses -/

/-- The empty `users` table (AUTOINCREMENT starts at 1). -/
def stEmpty : Store := ⟨[], 1⟩

/-- A record created by `"alice"`. -/
def recA : Rec := ⟨1, "Alice", "CA", some "opt1", "alice", "t0", "t0"⟩

/-- A store holding exactly `recA`. -/
def stA : Store := ⟨[recA], 2⟩

/-- C1: for every store state and every call
`update(id, name, state, options, ownerPrincipal)`: if no record with that id
exists the call fails with `RecordNotFound`, and if the record's owner differs
from the caller it fails with `Unauthorized`; in both failure cases the
returned store is the input store, so every stored record — including the
targeted record's name, state, options and updatedAt — is unchanged. -/
theorem updateRecord_failure_leaves_store_unchanged
    (st : Store) (id : Int) (nm stt : String) (o : Option String)
    (w now : String) :
    (getRecord id st = none →
      updateRecord id nm stt o w now st = (.error (.recordNotFound id), st)) ∧
    (∀ ex, getRecord id st = some ex → ex.github_username ≠ w →
      updateRecord id nm stt o w now st =
        (.error (.unauthorized ex.github_username w), st)) := by
  refine ⟨fun h => ?_, fun ex h hne => ?_⟩
  · unfold updateRecord
    rw [h]
  · unfold updateRecord
    rw [h]
    simp [hne]

/-- Witness for C1: updating id 99999 on the empty store fails with
`RecordNotFound`; `"bob"` updating alice's record fails with `Unauthorized`;
both leave the store untouched. -/
theorem updateRecord_failure_witness :
    updateRecord 99999 "x" "y" none "bob" "t1" stEmpty =
      (.error (.recordNotFound 99999), stEmpty) ∧
    updateRecord 1 "Mallory" "NV" none "bob" "t1" stA =
      (.error (.unauthorized "alice" "bob"), stA) :=
  ⟨(updateRecord_failure_leaves_store_unchanged stEmpty 99999 "x" "y" none
      "bob" "t1").1 rfl,
   (updateRecord_failure_leaves_store_unchanged stA 1 "Mallory" "NV" none
      "bob" "t1").2 recA rfl (by decide)⟩

/-- C2: `create("Alice","CA","opt1","alice")` on any well-formed store
returns a new record whose name/state/options/ownerPrincipal match the
arguments and whose updatedAt equals its createdAt, and `get` on the new id
returns exactly that record. -/
theorem createRecord_get_roundtrip (st : Store) (now : String)
    (hWF : WFStore st) :
    createRecord "Alice" "CA" (some "opt1") "alice" now st =
      (some (⟨st.nextId, "Alice", "CA", some "opt1", "alice", now, now⟩ : Rec),
       ⟨st.rows ++
          [⟨st.nextId, "Alice", "CA", some "opt1", "alice", now, now⟩],
        st.nextId + 1⟩) ∧
    (⟨st.nextId, "Alice", "CA", some "opt1", "alice", now, now⟩ :
        Rec).updated_at =
      (⟨st.nextId, "Alice", "CA", some "opt1", "alice", now, now⟩ :
        Rec).created_at ∧
    getRecord st.nextId
      (⟨st.rows ++
          [⟨st.nextId, "Alice", "CA", some "opt1", "alice", now, now⟩],
        st.nextId + 1⟩ : Store) =
      some ⟨st.nextId, "Alice", "CA", some "opt1", "alice", now, now⟩ := by
  have hnull : jsOrNull (some "opt1") = some "opt1" := by decide
  have h := createRecord_spec "Alice" "CA" (some "opt1") "alice" now st hWF
  rw [hnull] at h
  exact ⟨h, rfl, find?_append_fresh st.rows st.nextId hWF.1 _ rfl⟩

/-- Witness for C2 at the empty store. -/
theorem createRecord_get_roundtrip_witness :
    createRecord "Alice" "CA" (some "opt1") "alice" "t0" stEmpty =
      (some recA, ⟨[recA], 2⟩) ∧
    recA.updated_at = recA.created_at ∧
    getRecord 1 ⟨[recA], 2⟩ = some recA :=
  createRecord_get_roundtrip stEmpty "t0" ⟨by decide, by decide⟩

/-- C9: a successful `update(id, ...)` returns the targeted record with only
name, state, options and updatedAt replaced — id, ownerPrincipal and
createdAt are those of the old record (`applyUpdate` keeps them by
definition) — the new table is the old one with exactly the row of that id
rewritten, every row with a different id is still present unchanged, and
`get(id)` returns the post-update record. -/
theorem updateRecord_success_frame (st : Store) (id : Int) (nm stt : String)
    (o : Option String) (w now : String) (res : Option Rec) (st2 : Store)
    (hWF : WFStore st)
    (hup : updateRecord id nm stt o w now st = (.ok res, st2))
    (old : Rec) (hold : getRecord id st = some old) :
    res = some (applyUpdate nm stt o now old) ∧
    (applyUpdate nm stt o now old).id = old.id ∧
    (applyUpdate nm stt o now old).github_username = old.github_username ∧
    (applyUpdate nm stt o now old).created_at = old.created_at ∧
    (applyUpdate nm stt o now old).name = nm ∧
    (applyUpdate nm stt o now old).state = stt ∧
    (applyUpdate nm stt o now old).updated_at = now ∧
    st2.rows = st.rows.map
      (fun r => if r.id = id then applyUpdate nm stt o now r else r) ∧
    (∀ r ∈ st.rows, r.id ≠ id → r ∈ st2.rows) ∧
    getRecord id st2 = some (applyUpdate nm stt o now old) := by
  obtain ⟨hw, hrows, hnext, hres, hget⟩ :=
    updateRecord_ok_spec st id nm stt o w now res st2 hWF hup old hold
  refine ⟨hres, rfl, rfl, rfl, rfl, rfl, rfl, hrows, ?_, hget⟩
  intro r hr hne
  rw [hrows]
  have hfix : (if r.id = id then applyUpdate nm stt o now r else r) = r :=
    if_neg hne
  exact hfix ▸ List.mem_map_of_mem _ hr

/-- Witness for C9: alice successfully updates her own record. -/
theorem updateRecord_success_frame_witness :
    getRecord 1 ⟨[applyUpdate "Anna" "TX" (some "o2") "t1" recA], 2⟩ =
      some (applyUpdate "Anna" "TX" (some "o2") "t1" recA) :=
  (updateRecord_success_frame stA 1 "Anna" "TX" (some "o2") "alice" "t1"
      (some (applyUpdate "Anna" "TX" (some "o2") "t1" recA))
      ⟨[applyUpdate "Anna" "TX" (some "o2") "t1" recA], 2⟩
      ⟨by decide, by decide⟩ (by rfl) recA rfl).2.2.2.2.2.2.2.2.2

/-- C10: when the options argument is falsy (the empty string or absent),
`options || null` makes both `create` and a successful `update` store SQL
NULL for options, and the subsequent `get` returns a record with null
options. -/
theorem falsy_options_stored_null (o : Option String)
    (ho : o = some "" ∨ o = none) (st : Store) (nm stt w now : String)
    (hWF : WFStore st) :
    ((createRecord nm stt o w now st).1 =
        some ⟨st.nextId, nm, stt, none, w, now, now⟩ ∧
      getRecord st.nextId (createRecord nm stt o w now st).2 =
        some ⟨st.nextId, nm, stt, none, w, now, now⟩) ∧
    (∀ id res st2, updateRecord id nm stt o w now st = (.ok res, st2) →
      ∀ old, getRecord id st = some old →
        res = some (applyUpdate nm stt o now old) ∧
        (applyUpdate nm stt o now old).options = none ∧
        getRecord id st2 = some (applyUpdate nm stt o now old)) := by
  have hnull : jsOrNull o = none := by
    rcases ho with h | h <;> subst h <;> rfl
  constructor
  · have h := createRecord_spec nm stt o w now st hWF
    rw [hnull] at h
    constructor
    · rw [h]
    · rw [h]
      exact find?_append_fresh st.rows st.nextId hWF.1 _ rfl
  · intro id res st2 hup old hold
    obtain ⟨hw, hrows, hnext, hres, hget⟩ :=
      updateRecord_ok_spec st id nm stt o w now res st2 hWF hup old hold
    exact ⟨hres, by simp [applyUpdate, hnull], hget⟩

/-- Witness for C10: create with options `""` on the empty store, and alice
updating her record with options `""`. -/
theorem falsy_options_stored_null_witness :
    ((createRecord "Bob" "TX" (some "") "w1" "t2" stEmpty).1 =
        some ⟨1, "Bob", "TX", none, "w1", "t2", "t2"⟩ ∧
      getRecord 1 (createRecord "Bob" "TX" (some "") "w1" "t2" stEmpty).2 =
        some ⟨1, "Bob", "TX", none, "w1", "t2", "t2"⟩) ∧
    (some (applyUpdate "Bob" "TX" (some "") "t2" recA) =
        some (applyUpdate "Bob" "TX" (some "") "t2" recA) ∧
      (applyUpdate "Bob" "TX" (some "") "t2" recA).options = none ∧
      getRecord 1 ⟨[applyUpdate "Bob" "TX" (some "") "t2" recA], 2⟩ =
        some (applyUpdate "Bob" "TX" (some "") "t2" recA)) :=
  ⟨(falsy_options_stored_null (some "") (Or.inl rfl) stEmpty "Bob" "TX" "w1"
      "t2" ⟨by decide, by decide⟩).1,
   (falsy_options_stored_null (some "") (Or.inl rfl) stA "Bob" "TX" "alice"
      "t2" ⟨by decide, by decide⟩).2 1
      (some (applyUpdate "Bob" "TX" (some "") "t2" recA))
      ⟨[applyUpdate "Bob" "TX" (some "") "t2" recA], 2⟩
      (by rfl) recA rfl⟩

/-! ### Validator claims -/

/-- Counterexample to C4 as stated: `recordId = 0` is a present, non-NaN
integer, yet the validator (whose check is `!parsedData.recordId || isNaN`)
emits `MissingRecordId` for it, because the number 0 is falsy in JavaScript.
-/
theorem validate_recordId_zero_counterexample :
    (⟨.update, "Bob", "TX", "", some 0⟩ : NormalizedRecord).recordId =
      some 0 ∧
    validateIssueData ⟨.update, "Bob", "TX", "", some 0⟩ .update =
      ⟨false, ["Record ID is required for updates"]⟩ := by
  constructor
  · rfl
  · rfl

/-- C4 amended: validated against expected kind UPDATE, the validator emits
`MissingRecordId` iff the record's recordId is absent (null/NaN) or equal to
0 — i.e. iff it is JavaScript-falsy or NaN; for every present non-NaN
*nonzero* integer no such error appears. -/
theorem validate_missingRecordId_iff_absent_or_zero (pd : NormalizedRecord) :
    ("Record ID is required for updates" ∈
        (validateIssueData pd .update).errors) ↔
      (pd.recordId = none ∨ pd.recordId = some 0) := by
  obtain ⟨ty, nm, stt, op, rid⟩ := pd
  cases ty <;>
    rcases rid with _ | n <;>
      by_cases h2 : (nm == "" || jsTrim nm == "") = true <;>
        by_cases h3 : (stt == "" || jsTrim stt == "") = true <;>
          simp [validateIssueData, issueTypeStr, h2, h3]

/-- C5: when the operation kind matches the expected kind, the record-id
check passes (for UPDATE), and name and state are both empty after trimming,
validation returns invalid with exactly the two errors `MissingName` and
`MissingState`, in that order — the checks are not short-circuited. -/
theorem validate_collects_both_missing_errors (pd : NormalizedRecord)
    (ty : IssueType) (hty : pd.type = ty)
    (hrid : ty = .update → ¬(pd.recordId = none ∨ pd.recordId = some 0))
    (hname : jsTrim pd.name = "") (hstate : jsTrim pd.state = "") :
    validateIssueData pd ty =
      ⟨false, ["Name is required", "State is required"]⟩ := by
  obtain ⟨ty0, nm, stt, op, rid⟩ := pd
  cases hty
  have h2 : (nm == "" || jsTrim nm == "") = true := by simp [hname]
  have h3 : (stt == "" || jsTrim stt == "") = true := by simp [hstate]
  cases ty0
  · simp [validateIssueData, h2, h3]
  · rcases rid with _ | n
    · exact absurd (Or.inl rfl) (hrid rfl)
    · have hn : ¬n = 0 := fun h => (hrid rfl) (Or.inr (by rw [h]))
      simp [validateIssueData, h2, h3, hn]

/-- Witness for C5: name `" "` and state `""` under expected kind CREATE give
exactly the two required-field errors. -/
theorem validate_collects_both_missing_errors_witness :
    validateIssueData ⟨.create, " ", "", "", none⟩ .create =
      ⟨false, ["Name is required", "State is required"]⟩ :=
  validate_collects_both_missing_errors ⟨.create, " ", "", "", none⟩ .create
    rfl (by decide) (by decide) rfl

/-! ### Normalizer claims -/

/-- Counterexample to C3 as stated: the raw field map with the `recordId` key
present but bound to `""` (producible, e.g., from the frontmatter line
`recordId:  ` whose value trims to empty). The Normalizer succeeds, yet
operationKind is CREATE although an identifier field was present, because the
`data.recordId || data.record_id || data.id` chain tests truthiness, not
presence. -/
theorem normalize_presence_counterexample :
    (⟨none, none, none, some "", none, none⟩ : RawData).recordId.isSome =
      true ∧
    normalizeParsedData ⟨none, none, none, some "", none, none⟩ =
      .ok ⟨.create, "", "", "", none⟩ := by
  constructor
  · rfl
  · rfl

/-- A truthy value is present. -/
lemma isSome_of_jsTruthy {o : Option String} (h : jsTruthy o = true) :
    o.isSome = true := by
  cases o <;> simp [jsTruthy] at h ⊢

/-- The reconciled identifier is present iff some identifier field holds a
truthy (non-empty) value. -/
lemma idValue_isSome_iff (d : RawData) :
    (idValue d).isSome =
      (jsTruthy d.recordId || jsTruthy d.record_id || jsTruthy d.id) := by
  obtain ⟨n, s, o, r1, r2, r3⟩ := d
  by_cases h1 : jsTruthy r1 = true <;> by_cases h2 : jsTruthy r2 = true <;>
    by_cases h3 : jsTruthy r3 = true <;>
      simp [idValue, jsOrOpt, h1, h2, h3]
  all_goals
    first
      | exact isSome_of_jsTruthy h1
      | exact isSome_of_jsTruthy h2
      | exact isSome_of_jsTruthy h3

/-- C3 amended: on every raw field map on which the Normalizer succeeds,
operationKind is UPDATE iff an identifier field (recordId, record_id or id)
was present *with a non-empty (truthy) value* in the raw input — key presence
alone does not suffice — and recordId is non-null iff operationKind is
UPDATE. -/
theorem normalize_update_iff_truthy_identifier (raw : RawData)
    (r : NormalizedRecord) (h : normalizeParsedData raw = .ok r) :
    (r.type = .update ↔
      (jsTruthy raw.recordId || jsTruthy raw.record_id || jsTruthy raw.id)
        = true) ∧
    (r.recordId.isSome = true ↔ r.type = .update) := by
  cases hc : (jsTruthy raw.recordId || jsTruthy raw.record_id ||
      jsTruthy raw.id) with
  | false =>
    have hiv : idValue raw = none := by
      have := idValue_isSome_iff raw
      rw [hc] at this
      exact Option.not_isSome_iff_eq_none.mp (by simp [this])
    simp only [normalizeParsedData, hiv, hc] at h
    simp only [Bool.false_eq_true, if_false] at h
    injection h with h'
    subst h'
    simp
  | true =>
    have hsome : (idValue raw).isSome = true := by
      rw [idValue_isSome_iff, hc]
    obtain ⟨s, hiv⟩ := Option.isSome_iff_exists.mp hsome
    simp only [normalizeParsedData, hiv, hc] at h
    rcases hp : jsParseInt s with _ | n
    · rw [hp] at h
      simp at h
    · rw [hp] at h
      simp only [if_true] at h
      injection h with h'
      subst h'
      simp

/-- Witness for C3 amended, at a raw map with `recordId = "7"`. -/
theorem normalize_update_iff_truthy_identifier_witness :
    ((⟨.update, "", "", "", some 7⟩ : NormalizedRecord).type = .update ↔
      (jsTruthy (some "7") || jsTruthy (none : Option String) ||
        jsTruthy (none : Option String)) = true) ∧
    ((⟨.update, "", "", "", some 7⟩ : NormalizedRecord).recordId.isSome =
        true ↔
      (⟨.update, "", "", "", some 7⟩ : NormalizedRecord).type = .update) :=
  normalize_update_iff_truthy_identifier
    ⟨none, none, none, some "7", none, none⟩
    ⟨.update, "", "", "", some 7⟩ rfl

/-- C8: whenever the reconciled identifier value is present, normalization
fails with `InvalidRecordId` exactly when `parseInt(value, 10)` yields NaN
(no parseable leading base-10 integer, the code's notion of non-numeric); in
particular the section-format body `"### Record ID\nabc"` fails with
`InvalidRecordId`. -/
theorem normalize_invalidRecordId_iff_unparsable (raw : RawData) (s : String)
    (hiv : idValue raw = some s) :
    (normalizeParsedData raw = .error (.invalidRecordId s) ↔
      jsParseInt s = none) ∧
    parseIssueBody (some "### Record ID\nabc") =
      .error (.invalidRecordId "abc") := by
  constructor
  · unfold normalizeParsedData
    rw [hiv]
    rcases hp : jsParseInt s with _ | n
    · simp [hp]
    · simp [hp]
  · rfl

/-- Witness for C8, at a raw map with `recordId = "abc"`. -/
theorem normalize_invalidRecordId_iff_unparsable_witness :
    (normalizeParsedData ⟨none, none, none, some "abc", none, none⟩ =
        .error (.invalidRecordId "abc") ↔ jsParseInt "abc" = none) ∧
    parseIssueBody (some "### Record ID\nabc") =
      .error (.invalidRecordId "abc") :=
  normalize_invalidRecordId_iff_unparsable
    ⟨none, none, none, some "abc", none, none⟩ "abc" rfl

/-! ### Classifier claim -/

/-- Specification-side classifier, transcribed from claim C6's ordered rule
list: labels "update"/"update-record" give UPDATE; labels
"create"/"create-record" give CREATE; a title containing "[update]" or
starting with "update:" gives UPDATE; a title containing "[create]" or
starting with "create:" gives CREATE; otherwise CREATE — first match wins,
case-insensitively. -/
def detectIssueTypeSpec (title : String) (labels : List LabelInput) :
    IssueType :=
  let ln := labelNamesOf labels
  if ln.contains "update" || ln.contains "update-record" then .update
  else if ln.contains "create" || ln.contains "create-record" then .create
  else if jsIncludes (jsToLower title) "[update]" ||
      jsStartsWith (jsToLower title) "update:" then .update
  else if jsIncludes (jsToLower title) "[create]" ||
      jsStartsWith (jsToLower title) "create:" then .create
  else .create

/-- C6: the classifier implements exactly the claim's rule cascade for every
title and label set; in particular `"[Update] fix record"` with no labels is
UPDATE and `"Create: new user"` with no labels is CREATE. -/
theorem detectIssueType_matches_spec_cascade :
    (∀ title labels,
      detectIssueType title labels = detectIssueTypeSpec title labels) ∧
    detectIssueType "[Update] fix record" [] = .update ∧
    detectIssueType "Create: new user" [] = .create :=
  ⟨fun _ _ => rfl, by decide, by decide⟩

/-! ### Frontmatter claim -/

/-- A whitespace run followed by a newline always starts a `\s*\n` match. -/
lemma wsRun_append_nl (w : List Char) (t : List Char)
    (hw : ∀ c ∈ w, isWsChar c = true) :
    wsRunHasNewline (w ++ '\n' :: t) = true := by
  induction w with
  | nil => simp [wsRunHasNewline]
  | cons c w ih =>
    have hc : isWsChar c = true := hw c (by simp)
    by_cases hnl : c = '\n'
    · simp [wsRunHasNewline, hnl]
    · simp only [List.cons_append, wsRunHasNewline, if_neg hnl, if_pos hc]
      exact ih (fun x hx => hw x (by simp [hx]))

/-- A successful `wsRunHasNewline` splits the list at its first newline, with
only non-newline whitespace before it; `dropThruFirstNl` returns the tail. -/
lemma wsRun_exists (l : List Char) (h : wsRunHasNewline l = true) :
    ∃ w t, (∀ c ∈ w, isWsChar c = true ∧ c ≠ '\n') ∧ l = w ++ '\n' :: t ∧
      dropThruFirstNl l = t := by
  induction l with
  | nil => simp [wsRunHasNewline] at h
  | cons c rest ih =>
    by_cases hnl : c = '\n'
    · exact ⟨[], rest, by simp, by simp [hnl], by simp [dropThruFirstNl, hnl]⟩
    · have hc : isWsChar c = true := by
        by_contra hcc
        simp [wsRunHasNewline, hnl, hcc] at h
      have h' : wsRunHasNewline rest = true := by
        simpa [wsRunHasNewline, hnl, hc] using h
      obtain ⟨w, t, hw, hl, hd⟩ := ih h'
      refine ⟨c :: w, t, ?_, by simp [hl], by simp [dropThruFirstNl, hnl, hd]⟩
      intro x hx
      rcases List.mem_cons.mp hx with hx | hx
      · exact hx ▸ ⟨hc, hnl⟩
      · exact hw x hx

/-- A closing delimiter occurring after any prefix is found. -/
lemma hasClose_of_append (p q : List Char) (hq : startsClose q = true) :
    hasCloseDelim (p ++ '\n' :: q) = true := by
  induction p with
  | nil => simp [hasCloseDelim, hq]
  | cons c p ih => simp [hasCloseDelim, ih]

/-- A found closing delimiter yields the position witness. -/
lemma hasClose_exists (l : List Char) (h : hasCloseDelim l = true) :
    ∃ p q, l = p ++ '\n' :: q ∧ startsClose q = true := by
  induction l with
  | nil => simp [hasCloseDelim] at h
  | cons c rest ih =>
    rcases (by simpa [hasCloseDelim] using h :
        (c = '\n' ∧ startsClose rest = true) ∨ hasCloseDelim rest = true)
      with ⟨hc, hs⟩ | h2
    · exact ⟨[], rest, by simp [hc], hs⟩
    · obtain ⟨p, q, hl, hq⟩ := ih h2
      exact ⟨c :: p, q, by simp [hl], hq⟩

/-- Shape of a successful `startsClose`. -/
lemma startsClose_elim (q : List Char) (h : startsClose q = true) :
    ∃ r, q = '-' :: '-' :: '-' :: r ∧ wsRunHasNewline r = true := by
  unfold startsClose at h
  split at h
  · rename_i r
    exact ⟨r, rfl, h⟩
  · exact absurd h (by simp)

/-- Dropping through the first newline of a delimited text keeps the closing
delimiter reachable: the closing pattern lies strictly after the separator
newline, hence after the first newline wherever that falls. -/
lemma dropThru_hasClose (w block q : List Char) (hq : startsClose q = true) :
    hasCloseDelim (dropThruFirstNl (w ++ '\n' :: (block ++ '\n' :: q)))
      = true := by
  induction w with
  | nil =>
    simp only [List.nil_append, dropThruFirstNl, if_pos rfl]
    exact hasClose_of_append block q hq
  | cons c w ih =>
    by_cases hnl : c = '\n'
    · simp only [List.cons_append, dropThruFirstNl, if_pos hnl]
      show hasCloseDelim (w ++ '\n' :: (block ++ '\n' :: q)) = true
      have hsh : w ++ '\n' :: (block ++ '\n' :: q) =
          (w ++ '\n' :: block) ++ '\n' :: q := by simp
      rw [hsh]
      exact hasClose_of_append _ q hq
    · simpa only [List.cons_append, dropThruFirstNl, if_neg hnl] using ih

/-- The executable frontmatter matcher agrees with the declarative regex
shape `---`, whitespace, newline, block, `\n---`, whitespace, newline,
remainder. -/
theorem fmMatchableL_iff (l : List Char) :
    fmMatchableL l = true ↔ FMShapeL l := by
  constructor
  · intro h
    unfold fmMatchableL at h
    split at h
    · rename_i rest
      obtain ⟨hws, hclose⟩ := Bool.and_eq_true_iff.mp h
      obtain ⟨w1, t, hw1, hrest, hdrop⟩ := wsRun_exists rest hws
      rw [hdrop] at hclose
      obtain ⟨p, q, ht, hq⟩ := hasClose_exists t hclose
      obtain ⟨r, hqq, hwr⟩ := startsClose_elim q hq
      obtain ⟨w2, t2, hw2, hr, _⟩ := wsRun_exists r hwr
      refine ⟨w1, p, w2, t2, fun c hc => (hw1 c hc).1,
        fun c hc => (hw2 c hc).1, ?_⟩
      rw [hrest, ht, hqq, hr]
    · exact absurd h (by simp)
  · rintro ⟨w1, block, w2, rest, hw1, hw2, hl⟩
    subst hl
    simp only [fmMatchableL, Bool.and_eq_true]
    constructor
    · exact wsRun_append_nl w1 _ hw1
    · exact dropThru_hasClose w1 block _
        (by simpa [startsClose] using wsRun_append_nl w2 rest hw2)

/-- C7: for a non-empty body whose trimmed form begins with the frontmatter
delimiter, the extraction stage succeeds iff the trimmed text has the
declarative shape delimiter-block-delimiter-remainder, and whenever that
shape is not matched it fails with `MalformedFrontmatter` — and so does the
whole `parseIssueBody` pipeline, which therefore never falls back to the
section strategy. -/
theorem frontmatter_extraction_iff_structure (body : String)
    (hne : body ≠ "")
    (hstart : jsStartsWith (jsTrim body) "---" = true) :
    ((∃ raw, extractFrontmatterRaw (jsTrim body) = .ok raw) ↔
      FMShapeL (jsTrim body).toList) ∧
    (¬ FMShapeL (jsTrim body).toList →
      extractFrontmatterRaw (jsTrim body) = .error .malformedFrontmatter ∧
      parseIssueBody (some body) = .error .malformedFrontmatter) := by
  have hiff : fmMatchable (jsTrim body) = true ↔
      FMShapeL (jsTrim body).toList := fmMatchableL_iff (jsTrim body).toList
  constructor
  · constructor
    · rintro ⟨raw, hraw⟩
      by_cases hm : fmMatchable (jsTrim body) = true
      · exact hiff.mp hm
      · unfold extractFrontmatterRaw at hraw
        rw [if_neg hm] at hraw
        exact absurd hraw (by simp)
    · intro hshape
      unfold extractFrontmatterRaw
      rw [if_pos (hiff.mpr hshape)]
      exact ⟨_, rfl⟩
  · intro hshape
    have hm : ¬ fmMatchable (jsTrim body) = true :=
      fun hh => hshape (hiff.mp hh)
    have hext : extractFrontmatterRaw (jsTrim body) =
        .error .malformedFrontmatter := by
      unfold extractFrontmatterRaw
      rw [if_neg hm]
    refine ⟨hext, ?_⟩
    have h1 : parseIssueBody (some body) =
        parseYAMLFrontmatter (jsTrim body) := by
      simp [parseIssueBody, hne, hstart]
    rw [h1]
    unfold parseYAMLFrontmatter
    rw [hext]
    rfl

/-- Witness for C7: a malformed opening-only body fails with
`MalformedFrontmatter` end to end; a well-formed body satisfies the iff. -/
theorem frontmatter_extraction_iff_structure_witness :
    (((∃ raw, extractFrontmatterRaw (jsTrim "---\nname: Bob") = .ok raw) ↔
        FMShapeL (jsTrim "---\nname: Bob").toList) ∧
      (¬ FMShapeL (jsTrim "---\nname: Bob").toList →
        extractFrontmatterRaw (jsTrim "---\nname: Bob") =
          .error .malformedFrontmatter ∧
        parseIssueBody (some "---\nname: Bob") =
          .error .malformedFrontmatter)) ∧
    (((∃ raw, extractFrontmatterRaw (jsTrim "---\nname: Bob\n---\nx") =
          .ok raw) ↔
        FMShapeL (jsTrim "---\nname: Bob\n---\nx").toList) ∧
      (¬ FMShapeL (jsTrim "---\nname: Bob\n---\nx").toList →
        extractFrontmatterRaw (jsTrim "---\nname: Bob\n---\nx") =
          .error .malformedFrontmatter ∧
        parseIssueBody (some "---\nname: Bob\n---\nx") =
          .error .malformedFrontmatter)) :=
  ⟨frontmatter_extraction_iff_structure "---\nname: Bob" (by decide)
      (by decide),
   frontmatter_extraction_iff_structure "---\nname: Bob\n---\nx" (by decide)
      (by decide)⟩
